import Mathlib

/-
Verification development for the link-protection Telegram bot (main.py).
The handlers of main.py are shallowly embedded as pure Lean functions:
the Mongo collections become lists of records, the external chat client
becomes explicit function parameters returning Except values (errors model
raised exceptions), and each handler returns its new state together with a
value describing the user-visible reply.
-/

namespace TLBot

/-- Telegram chat-member statuses, as used by the constants
ChatMember.MEMBER, ChatMember.ADMINISTRATOR, ChatMember.OWNER and the
remaining possible statuses of the Bot API. -/
inductive ChatStatus
  | member
  | administrator
  | owner
  | restricted
  | left
  | banned
deriving DecidableEq, Repr

/-- The test on line 106-110 of main.py: the status must be one of
MEMBER, ADMINISTRATOR, OWNER. -/
def qualifyingStatus : ChatStatus → Bool
  | .member => true
  | .administrator => true
  | .owner => true
  | _ => false

/-- A chat identifier as passed to the Bot API: either a numeric id
(int in Python) or a handle string. -/
inductive ChatId
  | num (n : Int)
  | handle (s : String)
deriving DecidableEq, Repr

/-- Python str.startswith, modelled on the character list of the string. -/
def pyStartsWith (s p : String) : Bool :=
  p.data.isPrefixOf s.data

/-- Value of a nonempty all-digit character list, in base 10. -/
def digitsVal (cs : List Char) : Option Nat :=
  if cs ≠ [] && cs.all Char.isDigit then
    some (cs.foldl (fun a c => a * 10 + (c.toNat - 48)) 0)
  else none

/-- Python int(s) on a string, returning none when int raises ValueError.
Models stripping of surrounding spaces and an optional sign followed by
decimal digits, which covers every channel identifier occurring here. -/
def pyInt (s : String) : Option Int :=
  let cs := ((s.data.dropWhile (· = ' ')).reverse.dropWhile (· = ' ')).reverse
  match cs with
  | '-' :: rest => (digitsVal rest).map (fun n => -(n : Int))
  | '+' :: rest => (digitsVal rest).map (fun n => (n : Int))
  | _ => (digitsVal cs).map (fun n => (n : Int))

/-- The identifier normalisation repeated at lines 72-75 and 100-103 of
main.py: try int(ch); on ValueError use the string, prefixed with the
at-sign when it does not already start with one. -/
def normalize_chat_id (ch : String) : ChatId :=
  match pyInt ch with
  | some n => .num n
  | none => .handle (if pyStartsWith ch "@" then ch else "@" ++ ch)

/-- The for-loop of check_channel_membership (lines 98-113). The query
argument models await context.bot.get_chat_member(chat_id, user_id) for the
fixed user: Except.error is a raised exception. Besides the boolean result
the function returns the list of chat ids actually queried, so that the
short-circuit behaviour is visible in the model. -/
def membershipLoop (query : ChatId → Except Unit ChatStatus) :
    List String → Bool × List ChatId
  | [] => (true, [])
  | ch :: rest =>
    let cid := normalize_chat_id ch
    match query cid with
    | .error _ => (false, [cid])
    | .ok s =>
      if qualifyingStatus s then
        let r := membershipLoop query rest
        (r.1, cid :: r.2)
      else (false, [cid])

/-- check_channel_membership (lines 93-114): true when no channels are
configured, otherwise the loop above. -/
def check_channel_membership (channels : List String)
    (query : ChatId → Except Unit ChatStatus) : Bool :=
  if channels = [] then true
  else (membershipLoop query channels).1

/-- A document of the protected_links collection, as inserted at
lines 220-227 of main.py. -/
structure LinkRecord where
  id : String
  telegram_link : String
  created_by : Int
  created_at : Nat
  active : Bool
  clicks : Nat
deriving DecidableEq, Repr

/-- links_collection.find_one with filter id = token and active = True
(lines 160 and 192). -/
def findActiveLink (links : List LinkRecord) (token : String) :
    Option LinkRecord :=
  links.find? (fun r => r.id == token && r.active)

/-- A document of the users collection. -/
structure UserRecord where
  user_id : Int
  username : String
  first_name : String
  last_active : Nat
deriving DecidableEq, Repr

/-- users_collection.update_one with upsert=True keyed on user_id
(lines 136-144). The collection has a unique index on user_id, so
updating every matching record models updating the single match. -/
def upsertUser (users : List UserRecord) (uid : Int)
    (uname fname : String) (now : Nat) : List UserRecord :=
  if users.any (fun r => r.user_id == uid) then
    users.map (fun r =>
      if r.user_id == uid then
        { r with username := uname, first_name := fname, last_active := now }
      else r)
  else users ++ [⟨uid, uname, fname, now⟩]

/-- The user-visible replies that the start handler can produce. -/
inductive StartReply
  | gatedPrompt (tokenArg : Option String)
  | expiredReply
  | protectedLauncher (webUrl : String)
  | menuReply
deriving DecidableEq, Repr

/-- The start handler (lines 133-178): upsert the user, gate on
membership, then with an argument look up the token and reply with the
expired message or the web-app launcher, and with no argument reply with
the menu. -/
def start (channels : List String) (query : ChatId → Except Unit ChatStatus)
    (links : List LinkRecord) (users : List UserRecord)
    (userId : Int) (uname fname : String) (now : Nat)
    (args : List String) (extUrl : String) :
    List UserRecord × StartReply :=
  let users1 := upsertUser users userId uname fname now
  if check_channel_membership channels query = false then
    (users1, .gatedPrompt args.head?)
  else
    match args with
    | token :: _ =>
      match findActiveLink links token with
      | none => (users1, .expiredReply)
      | some _ => (users1, .protectedLauncher (extUrl ++ "/join?token=" ++ token))
    | [] => (users1, .menuReply)

/-- Python s.split(sep, maxsplit) for a one-character separator, on
character lists: the first argument is the remaining split budget. -/
def pySplitChar (sep : Char) : Nat → List Char → List (List Char)
  | 0, cs => [cs]
  | _ + 1, [] => [[]]
  | n + 1, c :: cs =>
    if c = sep then [] :: pySplitChar sep n cs
    else
      match pySplitChar sep (n + 1) cs with
      | h :: tl => (c :: h) :: tl
      | [] => [[c]]

/-- q.data.split(sep, 2)[-1] at line 191 of main.py, with sep the
underscore character. -/
def tokenFromCallbackData (data : String) : String :=
  String.mk ((pySplitChar '_' 2 data.data).getLastD [])

/-- The user-visible outcomes of button_callback. -/
inductive CallbackReply
  | joinAlert
  | expiredEdit
  | verifiedLauncher (webUrl : String)
  | verifiedGeneric
  | notHandled
deriving DecidableEq, Repr

/-- button_callback (lines 181-203). The containment test mirrors the
Python membership test of the underscore in q.data. -/
def button_callback (channels : List String)
    (query : ChatId → Except Unit ChatStatus)
    (links : List LinkRecord) (data : String) (extUrl : String) :
    CallbackReply :=
  if pyStartsWith data "check_join" then
    if check_channel_membership channels query = false then .joinAlert
    else if data.data.contains '_' then
      let token := tokenFromCallbackData data
      match findActiveLink links token with
      | none => .expiredEdit
      | some _ => .verifiedLauncher (extUrl ++ "/join?token=" ++ token)
    else .verifiedGeneric
  else .notHandled

/-- The base64url alphabet used by base64.urlsafe_b64encode. -/
def b64urlAlphabet : String :=
  "ABCDEFGHIJKLMNOPQRSTUVWXYZabcdefghijklmnopqrstuvwxyz0123456789-_"

/-- Character of a six-bit value in the base64url alphabet. -/
def b64char (n : Nat) : Char :=
  b64urlAlphabet.data.getD n 'A'

/-- The six-bit groups of a byte list, three bytes to four sextets, with
the final one or two bytes zero-extended as in base64. -/
def b64sixtets : List Nat → List Nat
  | [] => []
  | [a] => [a / 4, a % 4 * 16]
  | [a, b] => [a / 4, a % 4 * 16 + b / 16, b % 16 * 4]
  | a :: b :: c :: rest =>
    a / 4 :: (a % 4 * 16 + b / 16) :: (b % 16 * 4 + c / 64) :: c % 64 ::
      b64sixtets rest

/-- The padding characters base64 appends, a function of the byte count. -/
def b64padChars (len : Nat) : List Char :=
  match len % 3 with
  | 1 => ['=', '=']
  | 2 => ['=']
  | _ => []

/-- base64.urlsafe_b64encode on a byte list, producing characters. -/
def b64urlEncode (bs : List Nat) : List Char :=
  (b64sixtets bs).map b64char ++ b64padChars bs.length

/-- Inverse of b64sixtets: reassemble the bytes from the six-bit groups.
Used to show the encoding loses no information. -/
def b64unsixtets : List Nat → List Nat
  | s0 :: s1 :: s2 :: s3 :: rest =>
    (s0 * 4 + s1 / 16) :: (s1 % 16 * 16 + s2 / 4) :: (s2 % 4 * 64 + s3) ::
      b64unsixtets rest
  | [s0, s1] => [s0 * 4 + s1 / 16]
  | [s0, s1, s2] => [s0 * 4 + s1 / 16, s1 % 16 * 16 + s2 / 4]
  | _ => []

/-- Python s.rstrip on the padding character, on character lists. -/
def rstripPad (cs : List Char) : List Char :=
  (cs.reverse.dropWhile (fun c => c = '=')).reverse

/-- The token expression of line 218 of main.py applied to the bytes of a
uuid: base64.urlsafe_b64encode(bytes).decode().rstrip of the padding. -/
def mkToken (bs : List Nat) : String :=
  String.mk (rstripPad (b64urlEncode bs))

/-- The byte at position i of a version-4 UUID built from 16 random
bytes: uuid.uuid4() draws 16 bytes of randomness and overwrites the
version nibble of byte 6 and the variant bits of byte 8. -/
def setVersionByte (i b : Nat) : Nat :=
  if i = 6 then b % 16 + 64
  else if i = 8 then b % 64 + 128
  else b

/-- Apply setVersionByte positionally, starting at index i. -/
def uuid4Go : Nat → List Nat → List Nat
  | _, [] => []
  | i, b :: rest => setVersionByte i b :: uuid4Go (i + 1) rest

/-- uuid.uuid4().bytes as a function of the 16 random input bytes. -/
def uuid4Bytes (r : List Nat) : List Nat :=
  uuid4Go 0 r

/-- The user-visible replies of protect_command. -/
inductive ProtectReply
  | gatedJoin
  | usageHelp
  | created (shareLink : String)
deriving DecidableEq, Repr

/-- protect_command (lines 206-234): gate on membership, validate the
argument, then insert the new link record and reply with the shareable
redemption link. randomBytes models the 16 random bytes drawn by
uuid.uuid4(). -/
def protect_command (channels : List String)
    (query : ChatId → Except Unit ChatStatus)
    (args : List String) (links : List LinkRecord)
    (randomBytes : List Nat) (userId : Int) (now : Nat)
    (botUsername : String) : List LinkRecord × ProtectReply :=
  if check_channel_membership channels query = false then
    (links, .gatedJoin)
  else
    match args with
    | [] => (links, .usageHelp)
    | a :: _ =>
      if pyStartsWith a "https://t.me/" = false then (links, .usageHelp)
      else
        let uid := mkToken (uuid4Bytes randomBytes)
        (links ++ [{ id := uid, telegram_link := a, created_by := userId,
                     created_at := now, active := true, clicks := 0 }],
         .created ("https://t.me/" ++ botUsername ++ "?start=" ++ uid))

/-- A Telegram message, kept abstract: only its identity matters. -/
structure TgMessage where
  msgId : Nat
deriving DecidableEq, Repr

/-- The user-visible replies of broadcast_command. -/
inductive BroadcastCmdReply
  | adminOnly
  | usageHint
  | confirmPrompt
deriving DecidableEq, Repr

/-- broadcast_command (lines 237-254). adminEnv models the ADMIN_ID
environment variable: none when unset, in which case the Python default
of 0 is used. pending models context.user_data keyed by the broadcast
entry; replyTo models update.message.reply_to_message. -/
def broadcast_command (adminEnv : Option Int) (userId : Int)
    (replyTo : Option TgMessage) (pending : Option TgMessage) :
    Option TgMessage × BroadcastCmdReply :=
  let admin_id := adminEnv.getD 0
  if userId ≠ admin_id then (pending, .adminOnly)
  else
    match replyTo with
    | none => (pending, .usageHint)
    | some m => (some m, .confirmPrompt)

/-- The edit applied to the confirmation prompt by
handle_broadcast_confirmation. -/
inductive BroadcastEdit
  | cancelledEdit
  | doneEdit (success : Nat)
deriving DecidableEq, Repr

/-- The for-loop of handle_broadcast_confirmation (lines 268-274):
per recipient one copy attempt whose failure is swallowed by the bare
except. Returns the success count together with the list of user ids
visited by the loop. -/
def broadcastLoop (copyOk : Int → Bool) :
    List UserRecord → Nat × List Int
  | [] => (0, [])
  | u :: rest =>
    let ok := copyOk u.user_id
    let r := broadcastLoop copyOk rest
    ((if ok then 1 else 0) + r.1, u.user_id :: r.2)

/-- handle_broadcast_confirmation (lines 256-276). pending models
context.user_data.get of the broadcast entry; when it is none every copy
attempt fails (copy of None raises, caught by the bare except). copyOk
models whether msg.copy to the given user id succeeds. The first
component of the result is the pending entry afterwards, the second the
list of user ids attempted, the third the edit to the prompt. -/
def handle_broadcast_confirmation (data : String)
    (pending : Option TgMessage) (users : List UserRecord)
    (copyOk : TgMessage → Int → Bool) :
    Option TgMessage × List Int × BroadcastEdit :=
  if data = "cancel_broadcast" then (pending, [], .cancelledEdit)
  else
    let copy1 : Int → Bool := fun uid =>
      match pending with
      | none => false
      | some m => copyOk m uid
    let r := broadcastLoop copy1 users
    (pending, r.2, .doneEdit r.1)

/-- A document of the channels collection: a cached invite link. A
missing invite_link field is modelled by the empty string, matching the
falsiness test of line 69. -/
structure ChannelCacheEntry where
  channel_id : String
  invite_link : String
deriving DecidableEq, Repr

/-- channels_collection.update_one keyed on channel_id with upsert=True
(lines 83-87). The collection has a unique index on channel_id. -/
def cacheUpsert (cache : List ChannelCacheEntry) (cid link : String) :
    List ChannelCacheEntry :=
  if cache.any (fun e => e.channel_id == cid) then
    cache.map (fun e =>
      if e.channel_id == cid then { e with invite_link := link } else e)
  else cache ++ [⟨cid, link⟩]

/-- The exceptions the chat client can raise: telegram.error.BadRequest,
which line 89 catches, versus every other exception class (Forbidden,
NetworkError, TimedOut, ...), which the function does not catch. -/
inductive TgError
  | badRequest
  | otherError
deriving DecidableEq, Repr

/-- The cache-miss branch of get_channel_invite_link (lines 72-90):
normalise the id, create the invite link, on success cache and return
it, on BadRequest return the direct URL with leading at-signs stripped,
and let any other exception propagate. -/
def inviteCreateBranch (cache : List ChannelCacheEntry)
    (channel_id : String) (create : ChatId → Except TgError String) :
    Except TgError (List ChannelCacheEntry × String) :=
  match create (normalize_chat_id channel_id) with
  | .ok link => .ok (cacheUpsert cache channel_id link, link)
  | .error .badRequest =>
    .ok (cache, "https://t.me/" ++ String.mk (channel_id.data.dropWhile (fun c => c = '@')))
  | .error .otherError => .error .otherError

/-- get_channel_invite_link (lines 67-90): serve a cached non-empty
invite link, otherwise run the creation branch. The result pairs the
cache afterwards with the returned URL; Except.error models an exception
escaping the function. -/
def get_channel_invite_link (cache : List ChannelCacheEntry)
    (channel_id : String) (create : ChatId → Except TgError String) :
    Except TgError (List ChannelCacheEntry × String) :=
  match cache.find? (fun e => e.channel_id == channel_id) with
  | some e =>
    if e.invite_link ≠ "" then .ok (cache, e.invite_link)
    else inviteCreateBranch cache channel_id create
  | none => inviteCreateBranch cache channel_id create

/-- The channel reports a qualifying status for the user: the query
succeeds and returns member, administrator or owner. -/
def channelPasses (query : ChatId → Except Unit ChatStatus) (ch : String) : Prop :=
  ∃ s, query (normalize_chat_id ch) = Except.ok s ∧ qualifyingStatus s = true

/-- The channel makes the gate fail: the query raises, or returns a
non-qualifying status. -/
def channelFails (query : ChatId → Except Unit ChatStatus) (ch : String) : Prop :=
  ∀ s, query (normalize_chat_id ch) = Except.ok s → qualifyingStatus s = false

/-- A concrete chat client for witnesses: only the channel alpha reports
membership, every other query raises. -/
def qWitness : ChatId → Except Unit ChatStatus := fun cid =>
  if cid = ChatId.handle "@alpha" then Except.ok ChatStatus.member
  else Except.error ()

section MembershipLemmas

theorem membershipLoop_true_iff (q : ChatId → Except Unit ChatStatus)
    (l : List String) :
    (membershipLoop q l).1 = true ↔ ∀ ch ∈ l, channelPasses q ch := by
  induction l with
  | nil => simp [membershipLoop]
  | cons ch rest ih =>
    simp only [membershipLoop]
    cases hq : q (normalize_chat_id ch) with
    | error e =>
      simp only [List.forall_mem_cons]
      constructor
      · intro h; cases h
      · rintro ⟨⟨s, hs, -⟩, -⟩
        rw [hq] at hs
        cases hs
    | ok s =>
      cases hqual : qualifyingStatus s with
      | true =>
        simp only [hqual, if_true, List.forall_mem_cons]
        constructor
        · intro h
          exact ⟨⟨s, hq, hqual⟩, (ih.mp h)⟩
        · rintro ⟨-, hrest⟩
          exact ih.mpr hrest
      | false =>
        simp only [hqual, if_false, List.forall_mem_cons]
        constructor
        · intro h; cases h
        · rintro ⟨⟨s', hs', hqual'⟩, -⟩
          rw [hq] at hs'
          cases hs'
          rw [hqual'] at hqual
          cases hqual

theorem membershipLoop_fail_at (q : ChatId → Except Unit ChatStatus)
    (ch : String) (post : List String) (hfail : channelFails q ch) :
    ∀ pre : List String, (∀ c ∈ pre, channelPasses q c) →
      membershipLoop q (pre ++ ch :: post) =
        (false, pre.map normalize_chat_id ++ [normalize_chat_id ch]) := by
  intro pre
  induction pre with
  | nil =>
    intro _
    simp only [List.nil_append, List.map_nil]
    show membershipLoop q (ch :: post) = (false, [normalize_chat_id ch])
    simp only [membershipLoop]
    cases hq : q (normalize_chat_id ch) with
    | error e => rfl
    | ok s =>
      have := hfail s hq
      simp [this]
  | cons c pre ih =>
    intro hpass
    rcases hpass c (by simp) with ⟨s, hs, hqual⟩
    have hrest : ∀ c' ∈ pre, channelPasses q c' := fun c' hc' =>
      hpass c' (by simp [hc'])
    simp only [List.cons_append, membershipLoop, hs, hqual, if_true,
      List.map_cons, List.cons_append, List.append_eq, ih hrest]

end MembershipLemmas

/-- C1: check_channel_membership returns true for every user when the
configured channel set is empty; when non-empty it returns true iff every
configured channel reports a qualifying status (member, administrator,
owner); any non-qualifying status or query exception makes it return
false, and the loop stops at the first failing channel without querying
any later one. -/
theorem check_channel_membership_correct :
    (∀ query, check_channel_membership [] query = true) ∧
    (∀ channels query, channels ≠ [] →
      (check_channel_membership channels query = true ↔
        ∀ ch ∈ channels, channelPasses query ch)) ∧
    (∀ pre ch post query, (∀ c ∈ pre, channelPasses query c) →
      channelFails query ch →
      check_channel_membership (pre ++ ch :: post) query = false ∧
      (membershipLoop query (pre ++ ch :: post)).2 =
        pre.map normalize_chat_id ++ [normalize_chat_id ch]) := by
  refine ⟨fun query => rfl, fun channels query hne => ?_, ?_⟩
  · rw [check_channel_membership, if_neg hne]
    exact membershipLoop_true_iff query channels
  · intro pre ch post query hpass hfail
    have hloop := membershipLoop_fail_at query ch post hfail pre hpass
    constructor
    · rw [check_channel_membership, if_neg (by simp), hloop]
    · rw [hloop]

/-- Witness for C1: with channels alpha, beta, gamma and a client where
only alpha reports membership, the gate fails and only alpha and beta
are queried. -/
theorem check_channel_membership_correct_witness :
    check_channel_membership (["@alpha"] ++ "@beta" :: ["@gamma"]) qWitness = false ∧
    (membershipLoop qWitness (["@alpha"] ++ "@beta" :: ["@gamma"])).2 =
      ["@alpha"].map normalize_chat_id ++ [normalize_chat_id "@beta"] :=
  check_channel_membership_correct.2.2 ["@alpha"] "@beta" ["@gamma"] qWitness
    (by
      intro c hc
      rw [List.mem_singleton] at hc
      subst hc
      exact ⟨ChatStatus.member, by rfl, rfl⟩)
    (by
      intro s hs
      have : qWitness (normalize_chat_id "@beta") = Except.error () := by rfl
      rw [this] at hs
      cases hs)

section RegistryLemmas

theorem findActiveLink_eq_none (links : List LinkRecord) (t : String)
    (h : ∀ r ∈ links, r.id = t → r.active = false) :
    findActiveLink links t = none := by
  rw [findActiveLink, List.find?_eq_none]
  intro r hr
  simp only [Bool.and_eq_true, beq_iff_eq, not_and]
  intro hid
  simp [h r hr hid]

theorem findActiveLink_append_inactive (links : List LinkRecord)
    (rec : LinkRecord) (t : String) (h : rec.active = false) :
    findActiveLink (links ++ [rec]) t = findActiveLink links t := by
  rw [findActiveLink, List.find?_append, findActiveLink]
  cases hf : links.find? (fun r => r.id == t && r.active) with
  | some r => rfl
  | none => simp [List.find?, h]

theorem pyStartsWith_check_join (t : String) :
    pyStartsWith ("check_join_" ++ t) "check_join" = true := rfl

theorem contains_underscore_check_join (t : String) :
    ("check_join_" ++ t).data.contains '_' = true := rfl

theorem tokenFromCallbackData_token (t : String) :
    tokenFromCallbackData ("check_join_" ++ t) = t := by
  have h : ("check_join_" ++ t).data
      = 'c' :: 'h' :: 'e' :: 'c' :: 'k' :: '_' :: 'j' :: 'o' :: 'i' :: 'n' ::
        '_' :: t.data := rfl
  rw [tokenFromCallbackData, h]
  simp [pySplitChar]

end RegistryLemmas

/-- C2: for a requester passing the gate, redeeming a token whose every
matching record is inactive yields the expired reply from /start and
from the re-check callback, never the launcher; and appending an
inactive record leaves the /start reply unchanged, so an unknown token
and a revoked one produce the same user-visible outcome. -/
theorem unknown_token_equals_revoked
    (channels : List String) (query : ChatId → Except Unit ChatStatus)
    (links : List LinkRecord) (users : List UserRecord)
    (userId : Int) (uname fname : String) (now : Nat)
    (t extUrl : String)
    (hgate : check_channel_membership channels query = true) :
    ((∀ r ∈ links, r.id = t → r.active = false) →
      (start channels query links users userId uname fname now [t] extUrl).2
          = StartReply.expiredReply ∧
      (∀ url, (start channels query links users userId uname fname now [t] extUrl).2
          ≠ StartReply.protectedLauncher url) ∧
      button_callback channels query links ("check_join_" ++ t) extUrl
          = CallbackReply.expiredEdit ∧
      (∀ url, button_callback channels query links ("check_join_" ++ t) extUrl
          ≠ CallbackReply.verifiedLauncher url)) ∧
    (∀ rec : LinkRecord, rec.active = false →
      (start channels query (links ++ [rec]) users userId uname fname now [t] extUrl).2
        = (start channels query links users userId uname fname now [t] extUrl).2) := by
  constructor
  · intro hinactive
    have hfind := findActiveLink_eq_none links t hinactive
    have hstart :
        (start channels query links users userId uname fname now [t] extUrl).2
          = StartReply.expiredReply := by
      simp [start, hgate, hfind]
    have hcb :
        button_callback channels query links ("check_join_" ++ t) extUrl
          = CallbackReply.expiredEdit := by
      rw [button_callback]
      simp only [pyStartsWith_check_join, if_true, hgate,
        contains_underscore_check_join, tokenFromCallbackData_token, hfind]
      simp
    refine ⟨hstart, ?_, hcb, ?_⟩
    · intro url
      rw [hstart]
      intro h
      cases h
    · intro url
      rw [hcb]
      intro h
      cases h
  · intro rec hrec
    simp only [start, findActiveLink_append_inactive links rec t hrec]

/-- Witness for C2: concrete run where the registry holds only a revoked
record for the token. -/
theorem unknown_token_equals_revoked_witness :
    (start [] qWitness [] [] 7 "u" "f" 0 ["tok1"] "https://app").2
      = StartReply.expiredReply ∧
    button_callback [] qWitness [] ("check_join_" ++ "tok1") "https://app"
      = CallbackReply.expiredEdit ∧
    (start [] qWitness ([] ++ [⟨"tok1", "https://t.me/secret", 9, 0, false, 0⟩])
        [] 7 "u" "f" 0 ["tok1"] "https://app").2
      = (start [] qWitness [] [] 7 "u" "f" 0 ["tok1"] "https://app").2 := by
  have h := unknown_token_equals_revoked [] qWitness [] [] 7 "u" "f" 0 "tok1"
    "https://app" rfl
  have h1 := h.1 (by intro r hr; cases hr)
  exact ⟨h1.1, h1.2.2.1, h.2 ⟨"tok1", "https://t.me/secret", 9, 0, false, 0⟩ rfl⟩

section TokenLemmas

theorem b64urlAlphabet_nodup : b64urlAlphabet.data.Nodup := by decide

theorem b64char_mem (n : Nat) : b64char n ∈ b64urlAlphabet.data := by
  rw [b64char]
  rcases Nat.lt_or_ge n b64urlAlphabet.data.length with h | h
  · rw [List.getD_eq_getElem _ _ h]
    exact List.getElem_mem h
  · rw [List.getD_eq_default _ _ h]
    decide

theorem b64char_ne_pad (n : Nat) : b64char n ≠ '=' := by
  intro h
  have hm := b64char_mem n
  rw [h] at hm
  exact absurd hm (by decide)

theorem b64char_inj (i j : Nat) (hi : i < 64) (hj : j < 64)
    (h : b64char i = b64char j) : i = j := by
  have hlen : b64urlAlphabet.data.length = 64 := by decide
  rw [b64char, b64char, List.getD_eq_getElem _ _ (by omega),
    List.getD_eq_getElem _ _ (by omega)] at h
  exact (List.Nodup.getElem_inj_iff b64urlAlphabet_nodup).mp h

theorem b64sixtets_lt : ∀ bs : List Nat, (∀ b ∈ bs, b < 256) →
    ∀ s ∈ b64sixtets bs, s < 64
  | [], _ => by intro s hs; cases hs
  | [a], h => by
    have ha : a < 256 := h a (by simp)
    intro s hs
    simp only [b64sixtets, List.mem_cons, List.not_mem_nil, or_false] at hs
    rcases hs with rfl | rfl <;> omega
  | [a, b], h => by
    have ha : a < 256 := h a (by simp)
    have hb : b < 256 := h b (by simp)
    intro s hs
    simp only [b64sixtets, List.mem_cons, List.not_mem_nil, or_false] at hs
    rcases hs with rfl | rfl | rfl <;> omega
  | a :: b :: c :: rest, h => by
    have ha : a < 256 := h a (by simp)
    have hb : b < 256 := h b (by simp)
    have hc : c < 256 := h c (by simp)
    have ih := b64sixtets_lt rest (fun x hx => h x (by simp [hx]))
    intro s hs
    simp only [b64sixtets, List.mem_cons] at hs
    rcases hs with rfl | rfl | rfl | rfl | hs
    · omega
    · omega
    · omega
    · omega
    · exact ih s hs

theorem b64_roundtrip : ∀ bs : List Nat, (∀ b ∈ bs, b < 256) →
    b64unsixtets (b64sixtets bs) = bs
  | [], _ => rfl
  | [a], h => by
    have ha : a < 256 := h a (by simp)
    show b64unsixtets [a / 4, a % 4 * 16] = [a]
    simp only [b64unsixtets, List.cons.injEq, and_true]
    omega
  | [a, b], h => by
    have ha : a < 256 := h a (by simp)
    have hb : b < 256 := h b (by simp)
    show b64unsixtets [a / 4, a % 4 * 16 + b / 16, b % 16 * 4] = [a, b]
    simp only [b64unsixtets, List.cons.injEq, and_true]
    constructor <;> omega
  | a :: b :: c :: rest, h => by
    have ha : a < 256 := h a (by simp)
    have hb : b < 256 := h b (by simp)
    have hc : c < 256 := h c (by simp)
    have ih := b64_roundtrip rest (fun x hx => h x (by simp [hx]))
    simp only [b64sixtets, b64unsixtets, List.cons.injEq, ih, and_true]
    refine ⟨by omega, by omega, by omega⟩

theorem b64sixtets_length : ∀ bs : List Nat,
    (b64sixtets bs).length = (bs.length * 4 + 2) / 3
  | [] => by simp [b64sixtets]
  | [_] => by simp [b64sixtets]
  | [_, _] => by simp [b64sixtets]
  | _ :: _ :: _ :: rest => by
    have ih := b64sixtets_length rest
    simp only [b64sixtets, List.length_cons, ih]
    omega

theorem rstripPad_map_b64char (l : List Nat) :
    rstripPad (l.map b64char) = l.map b64char := by
  rw [rstripPad]
  cases hrev : (l.map b64char).reverse with
  | nil =>
    have : l.map b64char = [] := by
      simpa using congrArg List.reverse hrev
    simp [this, List.dropWhile]
  | cons c cs =>
    have hc : c ∈ l.map b64char := by
      rw [← List.mem_reverse, hrev]
      simp
    rcases List.mem_map.mp hc with ⟨n, -, rfl⟩
    rw [List.dropWhile_cons]
    simp only [decide_eq_true_eq, b64char_ne_pad n, if_false]
    rw [← hrev, List.reverse_reverse]

theorem rstripPad_append_one (xs : List Char) :
    rstripPad (xs ++ ['=']) = rstripPad xs := by
  simp [rstripPad, List.reverse_append, List.dropWhile_cons]

theorem rstripPad_append_two (xs : List Char) :
    rstripPad (xs ++ ['=', '=']) = rstripPad xs := by
  simp [rstripPad, List.reverse_append, List.dropWhile_cons]

theorem mkToken_eq (bs : List Nat) :
    mkToken bs = String.mk ((b64sixtets bs).map b64char) := by
  rw [mkToken, b64urlEncode, b64padChars]
  rcases hmod : bs.length % 3 with _ | _ | _ | k
  · simp only [List.append_nil, rstripPad_map_b64char]
  · simp only [rstripPad_append_two, rstripPad_map_b64char]
  · simp only [rstripPad_append_one, rstripPad_map_b64char]
  · omega

theorem map_b64char_inj : ∀ l1 l2 : List Nat, (∀ x ∈ l1, x < 64) →
    (∀ x ∈ l2, x < 64) → l1.map b64char = l2.map b64char → l1 = l2
  | [], [], _, _, _ => rfl
  | [], _ :: _, _, _, h => by cases h
  | _ :: _, [], _, _, h => by cases h
  | x :: xs, y :: ys, h1, h2, h => by
    simp only [List.map_cons, List.cons.injEq] at h
    have hx := b64char_inj x y (h1 x (by simp)) (h2 y (by simp)) h.1
    have hxs := map_b64char_inj xs ys (fun a ha => h1 a (by simp [ha]))
      (fun a ha => h2 a (by simp [ha])) h.2
    rw [hx, hxs]

theorem mkToken_inj (bs1 bs2 : List Nat) (h1 : ∀ b ∈ bs1, b < 256)
    (h2 : ∀ b ∈ bs2, b < 256) (h : mkToken bs1 = mkToken bs2) :
    bs1 = bs2 := by
  rw [mkToken_eq, mkToken_eq] at h
  have hdata : (b64sixtets bs1).map b64char = (b64sixtets bs2).map b64char :=
    congrArg String.data h
  have hsix := map_b64char_inj _ _ (b64sixtets_lt bs1 h1)
    (b64sixtets_lt bs2 h2) hdata
  have hun := congrArg b64unsixtets hsix
  rwa [b64_roundtrip bs1 h1, b64_roundtrip bs2 h2] at hun

theorem setVersionByte_lt (i b : Nat) (h : b < 256) :
    setVersionByte i b < 256 := by
  rw [setVersionByte]
  split
  · omega
  · split <;> omega

theorem uuid4Go_length : ∀ (i : Nat) (l : List Nat),
    (uuid4Go i l).length = l.length
  | _, [] => rfl
  | i, _ :: rest => by
    simp only [uuid4Go, List.length_cons, uuid4Go_length (i + 1) rest]

theorem uuid4Go_lt : ∀ (i : Nat) (l : List Nat), (∀ b ∈ l, b < 256) →
    ∀ b ∈ uuid4Go i l, b < 256
  | _, [], _ => by intro b hb; cases hb
  | i, x :: rest, h => by
    intro b hb
    simp only [uuid4Go, List.mem_cons] at hb
    rcases hb with rfl | hb
    · exact setVersionByte_lt i x (h x (by simp))
    · exact uuid4Go_lt (i + 1) rest (fun y hy => h y (by simp [hy])) b hb

theorem uuid4Bytes_length (r : List Nat) :
    (uuid4Bytes r).length = r.length := uuid4Go_length 0 r

theorem uuid4Bytes_lt (r : List Nat) (h : ∀ b ∈ r, b < 256) :
    ∀ b ∈ uuid4Bytes r, b < 256 := uuid4Go_lt 0 r h

end TokenLemmas

/-- C3: a token generated by /protect is derived from the 16 random
bytes (128 bits) drawn by uuid.uuid4; it has 22 characters, all from the
URL-safe base64 alphabet, with no padding character; and the encoding is
injective on the uuid bytes, so distinct uuids always give distinct
tokens (zero collisions among any number of generated tokens whose uuids
differ). -/
theorem protect_token_properties (r : List Nat) (hlen : r.length = 16)
    (hbytes : ∀ b ∈ r, b < 256) :
    (mkToken (uuid4Bytes r)).length = 22 ∧
    (∀ c ∈ (mkToken (uuid4Bytes r)).data, c ∈ b64urlAlphabet.data) ∧
    '=' ∉ (mkToken (uuid4Bytes r)).data ∧
    (∀ r2 : List Nat, (∀ b ∈ r2, b < 256) →
      mkToken (uuid4Bytes r2) = mkToken (uuid4Bytes r) →
      uuid4Bytes r2 = uuid4Bytes r) := by
  have hchars : (mkToken (uuid4Bytes r)).data
      = (b64sixtets (uuid4Bytes r)).map b64char := by
    rw [mkToken_eq]
  refine ⟨?_, ?_, ?_, ?_⟩
  · show (mkToken (uuid4Bytes r)).data.length = 22
    rw [hchars, List.length_map, b64sixtets_length, uuid4Bytes_length, hlen]
  · intro c hc
    rw [hchars] at hc
    rcases List.mem_map.mp hc with ⟨n, -, rfl⟩
    exact b64char_mem n
  · intro hc
    rw [hchars] at hc
    rcases List.mem_map.mp hc with ⟨n, -, hn⟩
    exact b64char_ne_pad n hn
  · intro r2 hbytes2 htok
    exact mkToken_inj (uuid4Bytes r2) (uuid4Bytes r)
      (uuid4Bytes_lt r2 hbytes2) (uuid4Bytes_lt r hbytes) htok

/-- Witness for C3 at a concrete 16-byte input. -/
theorem protect_token_properties_witness :
    (List.range 16).length = 16 ∧
    (mkToken (uuid4Bytes (List.range 16))).length = 22 ∧
    '=' ∉ (mkToken (uuid4Bytes (List.range 16))).data := by
  have h := protect_token_properties (List.range 16) (by decide) (by decide)
  exact ⟨by decide, h.1, h.2.2.1⟩

/-- C4: a gated-in user invoking /protect with an argument starting with
the t.me scheme gets a fresh record appended to the registry, carrying
the argument as destination, the requester as creator, active true and
zero clicks, and the reply embeds the shareable redemption link built
from the record token. -/
theorem protect_creates_record
    (channels : List String) (query : ChatId → Except Unit ChatStatus)
    (a : String) (rest : List String) (links : List LinkRecord)
    (randomBytes : List Nat) (userId : Int) (now : Nat) (bot : String)
    (hgate : check_channel_membership channels query = true)
    (harg : pyStartsWith a "https://t.me/" = true) :
    ∃ rec : LinkRecord,
      protect_command channels query (a :: rest) links randomBytes userId now bot
        = (links ++ [rec],
           ProtectReply.created ("https://t.me/" ++ bot ++ "?start=" ++ rec.id)) ∧
      rec.id = mkToken (uuid4Bytes randomBytes) ∧
      rec.telegram_link = a ∧ rec.created_by = userId ∧
      rec.active = true ∧ rec.clicks = 0 := by
  refine ⟨⟨mkToken (uuid4Bytes randomBytes), a, userId, now, true, 0⟩,
    ?_, rfl, rfl, rfl, rfl, rfl⟩
  simp [protect_command, hgate, harg]

/-- Witness for C4 at a concrete member user and valid argument. -/
theorem protect_creates_record_witness :
    ∃ rec : LinkRecord,
      protect_command [] qWitness ["https://t.me/mygroup"] [] (List.range 16) 5 0 "mybot"
        = ([] ++ [rec],
           ProtectReply.created ("https://t.me/" ++ "mybot" ++ "?start=" ++ rec.id)) ∧
      rec.id = mkToken (uuid4Bytes (List.range 16)) ∧
      rec.telegram_link = "https://t.me/mygroup" ∧ rec.created_by = 5 ∧
      rec.active = true ∧ rec.clicks = 0 :=
  protect_creates_record [] qWitness "https://t.me/mygroup" [] []
    (List.range 16) 5 0 "mybot" rfl (by decide)

/-- C8: /protect with no argument, or with a first argument not starting
with the t.me scheme, replies with usage help and leaves the link
registry unchanged. -/
theorem protect_rejects_bad_args
    (channels : List String) (query : ChatId → Except Unit ChatStatus)
    (links : List LinkRecord) (randomBytes : List Nat) (userId : Int)
    (now : Nat) (bot : String)
    (hgate : check_channel_membership channels query = true) :
    protect_command channels query [] links randomBytes userId now bot
        = (links, ProtectReply.usageHelp) ∧
    (∀ a rest, pyStartsWith a "https://t.me/" = false →
      protect_command channels query (a :: rest) links randomBytes userId now bot
        = (links, ProtectReply.usageHelp)) := by
  constructor
  · simp [protect_command, hgate]
  · intro a rest ha
    simp [protect_command, hgate, ha]

/-- Witness for C8 with a missing and a malformed argument. -/
theorem protect_rejects_bad_args_witness :
    protect_command [] qWitness [] [] (List.range 16) 5 0 "mybot"
        = ([], ProtectReply.usageHelp) ∧
    protect_command [] qWitness ["http://t.me/x"] [] (List.range 16) 5 0 "mybot"
        = ([], ProtectReply.usageHelp) := by
  have h := protect_rejects_bad_args [] qWitness [] (List.range 16) 5 0 "mybot" rfl
  exact ⟨h.1, h.2 "http://t.me/x" [] (by decide)⟩

/-- Amended C5: pressing Cancel edits the prompt to the cancellation
notice and sends nothing to any recipient (the attempt list is empty),
but the stashed pending payload is NOT discarded: the user_data entry
still holds it afterwards. -/
theorem broadcast_cancel_behavior (pending : Option TgMessage)
    (users : List UserRecord) (copyOk : TgMessage → Int → Bool) :
    handle_broadcast_confirmation "cancel_broadcast" pending users copyOk
      = (pending, [], BroadcastEdit.cancelledEdit) := rfl

/-- Counterexample to C5 as stated: after Cancel with a stashed payload,
the pending entry is unchanged rather than discarded. -/
theorem broadcast_cancel_keeps_payload :
    handle_broadcast_confirmation "cancel_broadcast" (some ⟨1⟩)
        [⟨7, "u", "f", 0⟩] (fun _ _ => true)
      = (some ⟨1⟩, [], BroadcastEdit.cancelledEdit) ∧
    (handle_broadcast_confirmation "cancel_broadcast" (some ⟨1⟩)
        [⟨7, "u", "f", 0⟩] (fun _ _ => true)).1 ≠ none := by
  refine ⟨rfl, ?_⟩
  intro h
  cases h

section BroadcastLemmas

theorem broadcastLoop_trace (f : Int → Bool) : ∀ users : List UserRecord,
    (broadcastLoop f users).2 = users.map (fun u => u.user_id)
  | [] => rfl
  | u :: rest => by
    simp only [broadcastLoop, List.map_cons, broadcastLoop_trace f rest]

theorem broadcastLoop_count (f : Int → Bool) : ∀ users : List UserRecord,
    (broadcastLoop f users).1 = users.countP (fun u => f u.user_id)
  | [] => rfl
  | u :: rest => by
    simp only [broadcastLoop, List.countP_cons, broadcastLoop_count f rest]
    cases h : f u.user_id <;> simp [h, Nat.add_comm]

end BroadcastLemmas

/-- C6: a confirmed broadcast visits every recipient in order, swallows
each individual failure, and the completion edit reports exactly the
number of successful copies. -/
theorem broadcast_confirm_reports_successes (m : TgMessage)
    (users : List UserRecord) (copyOk : TgMessage → Int → Bool) :
    handle_broadcast_confirmation "confirm_broadcast" (some m) users copyOk
      = (some m, users.map (fun u => u.user_id),
         BroadcastEdit.doneEdit (users.countP (fun u => copyOk m u.user_id))) := by
  rw [handle_broadcast_confirmation, if_neg (by decide)]
  simp only [broadcastLoop_trace, broadcastLoop_count]

/-- Amended C7: when no valid cache entry exists and the chat client
raises BadRequest, the resolver returns the direct t.me URL without
writing the cache and surfaces no error. -/
theorem invite_link_badrequest_fallback (cache : List ChannelCacheEntry)
    (channel_id : String) (create : ChatId → Except TgError String)
    (hmiss : ∀ e ∈ cache, e.channel_id = channel_id → e.invite_link = "")
    (hfail : create (normalize_chat_id channel_id)
      = Except.error TgError.badRequest) :
    get_channel_invite_link cache channel_id create
      = Except.ok (cache, "https://t.me/"
          ++ String.mk (channel_id.data.dropWhile (fun c => c = '@'))) := by
  rw [get_channel_invite_link]
  cases hf : cache.find? (fun e => e.channel_id == channel_id) with
  | none => rw [inviteCreateBranch, hfail]
  | some e =>
    have he := List.mem_of_find?_eq_some hf
    have hp := List.find?_some hf
    have hempty : e.invite_link = "" := hmiss e he (by simpa using hp)
    simp only [hempty, ne_eq, not_true_eq_false, if_false]
    rw [inviteCreateBranch, hfail]

/-- Witness for the amended C7 at a concrete channel handle. -/
theorem invite_link_badrequest_fallback_witness :
    get_channel_invite_link [] "@chan" (fun _ => Except.error TgError.badRequest)
      = Except.ok ([], "https://t.me/chan") := by
  have h := invite_link_badrequest_fallback [] "@chan"
    (fun _ => Except.error TgError.badRequest)
    (by intro e he; cases he) rfl
  rw [h]
  have hs : String.mk ("@chan".data.dropWhile (fun c => c = '@')) = "chan" := by
    decide
  rw [hs]
  rfl

/-- Counterexample to C7 as stated: an exception other than BadRequest
(network error, Forbidden) is not caught and escapes the resolver. -/
theorem invite_link_other_error_raises :
    get_channel_invite_link [] "somechannel"
        (fun _ => Except.error TgError.otherError)
      = Except.error TgError.otherError := rfl

/-- C9 as the code actually behaves: the bare re-check callback data
itself contains an underscore, so the handler extracts the literal token
"join", looks it up, and edits the message to the expired notice instead
of acknowledging generic verification success. -/
theorem bare_recheck_reports_expired :
    tokenFromCallbackData "check_join" = "join" ∧
    button_callback [] qWitness [] "check_join" "https://app"
      = CallbackReply.expiredEdit ∧
    button_callback [] qWitness [] "check_join" "https://app"
      ≠ CallbackReply.verifiedGeneric := by
  refine ⟨by decide, by decide, by decide⟩

/-- C10: with the ADMIN_ID environment variable unset the admin id
defaults to 0, so every requester with a nonzero id is denied and the
pending broadcast entry is left untouched. -/
theorem broadcast_admin_unset_denies (userId : Int)
    (replyTo pending : Option TgMessage) (h : userId ≠ 0) :
    broadcast_command none userId replyTo pending
      = (pending, BroadcastCmdReply.adminOnly) := by
  simp [broadcast_command, h]

/-- Witness for C10 at a concrete nonzero requester. -/
theorem broadcast_admin_unset_denies_witness :
    broadcast_command none 5 none none = (none, BroadcastCmdReply.adminOnly) :=
  broadcast_admin_unset_denies 5 none none (by decide)

end TLBot
